import Mathlib

/-!
Shallow embedding of the mDNS discovery library (`src/response.rs`,
`src/discover.rs`, `src/mdns.rs`, `src/errors.rs`) and proofs about it.

Machine integers are modelled as `Nat` (no arithmetic overflow occurs in the
embedded code paths); byte strings are `List Nat` with each element a byte
value; fallible operations return `Except`.  External collaborators (the
`dns_parser` codec, the std UTF-8 and case-folding routines, the socket) are
modelled as explicit function parameters or mirrored data, exactly as the
library consumes them.
-/

namespace Mdns

/-- Model of `std::net::Ipv4Addr`: four octets. -/
structure Ipv4Addr where
  o0 : Nat
  o1 : Nat
  o2 : Nat
  o3 : Nat
deriving DecidableEq, Repr

/-- Model of `std::net::Ipv6Addr`: eight 16-bit segments. -/
structure Ipv6Addr where
  s0 : Nat
  s1 : Nat
  s2 : Nat
  s3 : Nat
  s4 : Nat
  s5 : Nat
  s6 : Nat
  s7 : Nat
deriving DecidableEq, Repr

/-- Model of `std::net::IpAddr`. -/
inductive IpAddr where
  | v4 (addr : Ipv4Addr)
  | v6 (addr : Ipv6Addr)
deriving DecidableEq, Repr

/-- Model of `std::net::SocketAddr`: an IP address paired with a port. -/
structure SocketAddr where
  ip : IpAddr
  port : Nat
deriving DecidableEq, Repr

/-- Opaque model of `std::io::Error`: only its identity matters to the code. -/
structure IoError where
  code : Nat
deriving DecidableEq, Repr

/-- Opaque model of `dns_parser::Error` (decode failure). -/
structure DnsError where
  code : Nat
deriving DecidableEq, Repr

/-- Opaque model of the runtime timeout error type (`errors.rs`). -/
structure TimeoutError where
  code : Nat
deriving DecidableEq, Repr

/-- Model of the `errors.rs` `enum Error { Io, Dns, TimeoutError }`. -/
inductive Error where
  | io (e : IoError)
  | dns (e : DnsError)
  | timeout (e : TimeoutError)
deriving DecidableEq, Repr

/-- Model of `dns_parser::Class` (`IN`/`CS`/`CH`/`HS`). -/
inductive DnsClass where
  | IN
  | CS
  | CH
  | HS
deriving DecidableEq, Repr

/-- Source `response.rs`: `enum TxtRecordValue { None, Empty, Value(BString) }`.
`BString` (raw, not-necessarily-UTF-8 bytes) is modelled as `List Nat`. -/
inductive TxtRecordValue where
  | none
  | empty
  | value (bytes : List Nat)
deriving DecidableEq, Repr

/-- Source `response.rs`: `enum RecordKind`.  The Rust `TXT` variant holds a
`HashMap<String, TxtRecordValue>`; it is modelled as the association list of
its entries (the build order of `from_rr_data`), whose key multiset is exactly
that of the map. -/
inductive RecordKind where
  | A (addr : Ipv4Addr)
  | AAAA (addr : Ipv6Addr)
  | CNAME (name : String)
  | MX (preference : Nat) (exchange : String)
  | NS (name : String)
  | SRV (priority : Nat) (weight : Nat) (port : Nat) (target : String)
  | TXT (entries : List (String × TxtRecordValue))
  | PTR (name : String)
  | Unimplemented (data : List Nat)
deriving DecidableEq, Repr

/-- Source `response.rs`: `struct Record { name, class, ttl, kind }`. -/
structure Record where
  name : String
  cls : DnsClass
  ttl : Nat
  kind : RecordKind
deriving DecidableEq, Repr

/-- Source `response.rs`: `struct Response { answers, nameservers, additional }`. -/
structure Response where
  answers : List Record
  nameservers : List Record
  additional : List Record
deriving DecidableEq, Repr

/-- Model of the parsed `dns_parser` `rdata::soa::Record` (the codec hands the
library a parsed SOA record, not its raw bytes). -/
structure SoaRecord where
  primary_ns : String
  mailbox : String
  serial : Nat
  refresh : Nat
  retry : Nat
  expire : Nat
  minimum_ttl : Nat
deriving DecidableEq, Repr

/-- Model of `dns_parser::RData` as consumed by `RecordKind::from_rr_data`.
A TXT rdata is the list of its length-prefixed byte strings (what
`txt.iter()` yields); `Unknown` carries the raw payload bytes. -/
inductive RData where
  | A (addr : Ipv4Addr)
  | AAAA (addr : Ipv6Addr)
  | CNAME (name : String)
  | MX (preference : Nat) (exchange : String)
  | NS (name : String)
  | PTR (name : String)
  | SRV (priority : Nat) (weight : Nat) (port : Nat) (target : String)
  | TXT (strings : List (List Nat))
  | SOA (record : SoaRecord)
  | Unknown (data : List Nat)
deriving DecidableEq, Repr

/-- The byte value of the ASCII equals sign, the TXT key/value separator. -/
def eqByte : Nat := 61

/-- Model of the Rust slice split iterator used on TXT entries (split at every
occurrence of the separator byte): the maximal subslices between separator
occurrences.  It always yields at least one (possibly empty) subslice, exactly
like the Rust iterator. -/
def sliceSplit (sep : Nat) : List Nat → List (List Nat)
  | [] => [[]]
  | c :: rest =>
    if c = sep then [] :: sliceSplit sep rest
    else
      match sliceSplit sep rest with
      | [] => [[c]]
      | s :: ss => (c :: s) :: ss

/-- The body of the TXT loop in `RecordKind::from_rr_data` before the
duplicate check: split the entry at `=`, take the first segment as the key
(`kv_split.next()`, decoded with `String::from_utf8_lossy`, modelled by the
`lossy` parameter) and derive the value from the second segment
(`kv_split.next()` again): absent segment → `None`, empty segment → `Empty`,
otherwise `Value`.  `sliceSplit` never returns `[]`, so the first branch is
unreachable, mirroring the always-`Some` first `next()` in Rust. -/
def decodeTxtEntry (lossy : List Nat → String) (entry : List Nat) :
    String × TxtRecordValue :=
  match sliceSplit eqByte entry with
  | [] => (lossy [], TxtRecordValue.none)
  | keyBytes :: rest =>
    (lossy keyBytes,
      match rest with
      | [] => TxtRecordValue.none
      | valueBytes :: _ =>
        if valueBytes = [] then TxtRecordValue.empty
        else TxtRecordValue.value valueBytes)

/-- One insertion step of the TXT loop: the Rust code first asks
`txt_records.contains_key(&TxtRecordKey(key))`, where `TxtRecordKey` hashes
and compares by `to_lowercase()` (modelled by the `lower` parameter), and
inserts only when absent, so the first occurrence of a case-folded key wins. -/
def txtInsert (lower : String → String)
    (m : List (String × TxtRecordValue)) (kv : String × TxtRecordValue) :
    List (String × TxtRecordValue) :=
  if m.any (fun p => lower p.1 == lower kv.1) then m else m ++ [kv]

/-- The full TXT branch of `RecordKind::from_rr_data`: fold every
length-prefixed string of the payload through decode + first-wins insert.
The final `HashMap<String, _>` (keys unwrapped back out of `TxtRecordKey`,
hence compared case-sensitively again) is modelled by the resulting
association list. -/
def txtFromPayload (lossy : List Nat → String) (lower : String → String)
    (strings : List (List Nat)) : List (String × TxtRecordValue) :=
  strings.foldl (fun m entry => txtInsert lower m (decodeTxtEntry lossy entry)) []

/-- Lookup in the finished TXT mapping (`HashMap<String, TxtRecordValue>`):
`String` keys compare case-sensitively. -/
def txtLookup (m : List (String × TxtRecordValue)) (k : String) :
    Option TxtRecordValue :=
  (m.find? (fun p => p.1 == k)).map (fun p => p.2)

/-- The bytes of the fixed diagnostic `Vec<u8>` built by
`"SOA record handling is not implemented".into()` (pure ASCII, so the UTF-8
bytes are the code points). -/
def soaUnimplementedMsg : List Nat :=
  ("SOA record handling is not implemented").data.map Char.toNat

/-- Source `response.rs`: `RecordKind::from_rr_data`.  `lossy` and `lower` model the
external `String::from_utf8_lossy` and `str::to_lowercase`. -/
def RecordKind.from_rr_data (lossy : List Nat → String)
    (lower : String → String) (data : RData) : RecordKind :=
  match data with
  | RData.A addr => RecordKind.A addr
  | RData.AAAA addr => RecordKind.AAAA addr
  | RData.CNAME name => RecordKind.CNAME name
  | RData.MX preference exchange => RecordKind.MX preference exchange
  | RData.NS name => RecordKind.NS name
  | RData.PTR name => RecordKind.PTR name
  | RData.SRV priority weight port target =>
    RecordKind.SRV priority weight port target
  | RData.TXT txt => RecordKind.TXT (txtFromPayload lossy lower txt)
  | RData.SOA _ => RecordKind.Unimplemented soaUnimplementedMsg
  | RData.Unknown d => RecordKind.Unimplemented d

/-- Model of `dns_parser::ResourceRecord` as consumed by
`Record::from_resource_record` (`rr.name.to_string()` is modelled by storing
the display string directly). -/
structure ResourceRecord where
  name : String
  cls : DnsClass
  ttl : Nat
  data : RData
deriving DecidableEq, Repr

/-- Source `response.rs`: `Record::from_resource_record`. -/
def Record.from_resource_record (lossy : List Nat → String)
    (lower : String → String) (rr : ResourceRecord) : Record :=
  { name := rr.name, cls := rr.cls, ttl := rr.ttl,
    kind := RecordKind.from_rr_data lossy lower rr.data }

/-- Model of `dns_parser::Packet`: the three record sections the library
reads. -/
structure Packet where
  answers : List ResourceRecord
  nameservers : List ResourceRecord
  additional : List ResourceRecord
deriving DecidableEq, Repr

/-- Source `response.rs`: `Response::from_packet`. -/
def Response.from_packet (lossy : List Nat → String)
    (lower : String → String) (packet : Packet) : Response :=
  { answers := packet.answers.map (Record.from_resource_record lossy lower),
    nameservers :=
      packet.nameservers.map (Record.from_resource_record lossy lower),
    additional :=
      packet.additional.map (Record.from_resource_record lossy lower) }

/-- Source `response.rs`: `Response::records` — answers, then nameservers, then
additional, in wire order (the chained iterator, as a list). -/
def Response.records (r : Response) : List Record :=
  r.answers ++ r.nameservers ++ r.additional

/-- Source `response.rs`: `Response::is_empty`. -/
def Response.is_empty (r : Response) : Bool :=
  r.answers.isEmpty && r.nameservers.isEmpty && r.additional.isEmpty

/-- Source `response.rs`: `Response::ip_addr` — first `A` or `AAAA` record in
`records()` order (`find_map`). -/
def Response.ip_addr (r : Response) : Option IpAddr :=
  r.records.findSome? (fun record =>
    match record.kind with
    | RecordKind.A addr => some (IpAddr.v4 addr)
    | RecordKind.AAAA addr => some (IpAddr.v6 addr)
    | _ => none)

/-- Source `response.rs`: `Response::hostname` — first `PTR` target. -/
def Response.hostname (r : Response) : Option String :=
  r.records.findSome? (fun record =>
    match record.kind with
    | RecordKind.PTR host => some host
    | _ => none)

/-- Source `response.rs`: `Response::port` — first `SRV` port. -/
def Response.port (r : Response) : Option Nat :=
  r.records.findSome? (fun record =>
    match record.kind with
    | RecordKind.SRV _ _ port _ => some port
    | _ => none)

/-- Source `response.rs`: `Response::socket_address` —
`Some((self.ip_addr()?, self.port()?).into())`. -/
def Response.socket_address (r : Response) : Option SocketAddr :=
  (r.ip_addr).bind (fun ip => (r.port).map (fun p => { ip := ip, port := p }))

/-- ASCII instance of the external `String::from_utf8_lossy`: agrees with it
on ASCII-only inputs (each byte below 128 is its own code point; other bytes
are replaced by U+FFFD, a simplification only outside ASCII).  Used to
instantiate `lossy` in concrete scenarios, all of which are ASCII. -/
def asciiLossy (bs : List Nat) : String :=
  String.mk (bs.map (fun b => if b < 128 then Char.ofNat b else Char.ofNat 65533))

/-- ASCII instance of the external `str::to_lowercase`: agrees with it on
ASCII strings (the Lean `Char.toLower` folds exactly `A`–`Z`).  Used to
instantiate `lower` in concrete scenarios. -/
def asciiLower (s : String) : String :=
  String.mk (s.data.map Char.toLower)

/-- One result of `recv.recv_from(&mut self.recv_buffer).await` in
`mDNSListener::listen` (`mdns.rs`): either the bytes written into the buffer
(`ok []` is a zero-byte datagram, `count == 0`) or an I/O error. -/
inductive RecvResult where
  | ok (data : List Nat)
  | err (e : IoError)
deriving DecidableEq, Repr

/-- Source `mdns.rs`: the `try_stream!` loop of `mDNSListener::listen`, applied to a
finite prefix of receive results.  `parse` models the external
`dns_parser::Packet::parse`.  Per iteration: `recv_from(...).await?` — an
I/O error is yielded once (as `Error::Io`, via `?` in `try_stream!`) and the
stream ends; `if count > 0` — a zero-byte datagram yields nothing; a parsed
packet yields `Response::from_packet`; a parse failure is logged and
skipped. -/
def listenLoop (parse : List Nat → Except DnsError Packet)
    (lossy : List Nat → String) (lower : String → String) :
    List RecvResult → List (Except Error Response)
  | [] => []
  | RecvResult.err e :: _ => [Except.error (Error.io e)]
  | RecvResult.ok data :: rest =>
    if data.length > 0 then
      match parse data with
      | Except.ok rawPacket =>
        Except.ok (Response.from_packet lossy lower rawPacket) ::
          listenLoop parse lossy lower rest
      | Except.error _ => listenLoop parse lossy lower rest
    else listenLoop parse lossy lower rest

/-- Source `dns_parser::QueryType` (only `PTR` is used by the library). -/
inductive QueryType where
  | PTR
  | A
  | AAAA
  | SRV
  | TXT
deriving DecidableEq, Repr

/-- Source `dns_parser::QueryClass` (only `IN` is used by the library). -/
inductive QueryClass where
  | IN
  | CS
  | CH
  | HS
deriving DecidableEq, Repr

/-- One question added through `Builder::add_question(name, prefer_unicast,
qtype, qclass)`. -/
structure Question where
  name : String
  preferUnicast : Bool
  qtype : QueryType
  qclass : QueryClass
deriving DecidableEq, Repr

/-- The observable state of `dns_parser::Builder` as `send_request` drives
it: the header values passed to `Builder::new_query(id, recursion)` and the
questions added in order. -/
structure QueryBuilder where
  id : Nat
  recursion : Bool
  questions : List Question
deriving DecidableEq, Repr

/-- Source `Builder::new_query(id, recursion)`: fresh builder, no questions. -/
def newQuery (id : Nat) (recursion : Bool) : QueryBuilder :=
  { id := id, recursion := recursion, questions := [] }

/-- Source `Builder::add_question`: appends one question. -/
def addQuestion (b : QueryBuilder) (name : String) (preferUnicast : Bool)
    (qtype : QueryType) (qclass : QueryClass) : QueryBuilder :=
  { b with questions :=
      b.questions ++ [{ name := name, preferUnicast := preferUnicast,
                        qtype := qtype, qclass := qclass }] }

/-- Source `builder.build().unwrap_or_else(|x| x)` (`mdns.rs`): `Builder::build`
returns the encoded packet on success and, on overflow, a valid truncated
packet in the error position; either way those bytes are used. -/
def unwrapOrSelf (r : Except (List Nat) (List Nat)) : List Nat :=
  match r with
  | Except.ok packet => packet
  | Except.error truncated => truncated

/-- Source `mdns.rs`: `MULTICAST_ADDR:MULTICAST_PORT`, the fixed destination
`224.0.0.251:5353`. -/
def multicastDest : SocketAddr :=
  { ip := IpAddr.v4 { o0 := 224, o1 := 0, o2 := 0, o3 := 251 }, port := 5353 }

/-- Source `mdns.rs`: `mDNSSender::send_request`.  `build` models the external
`Builder::build` encoder (ok = full packet, error = valid truncated packet);
`sendTo` models `self.send.send_to(&packet_data, addr).await` of the Socket
Capability.  The builder is driven exactly as in the source:
`new_query(0, false)`, `prefer_unicast = false`, one PTR/IN question for the
service name; an I/O failure of the send is returned (as `Error::Io` via
`?`), otherwise `Ok(())`. -/
def sendRequest (serviceName : String)
    (build : QueryBuilder → Except (List Nat) (List Nat))
    (sendTo : List Nat → SocketAddr → Except IoError Nat) :
    Except Error Unit :=
  let builder := newQuery 0 false
  let preferUnicast := false
  let builder :=
    addQuestion builder serviceName preferUnicast QueryType.PTR QueryClass.IN
  let packetData := unwrapOrSelf (build builder)
  let addr := multicastDest
  match sendTo packetData addr with
  | Except.ok _ => Except.ok ()
  | Except.error e => Except.error (Error.io e)

/-- Source `discover.rs`: the predicate of the `.filter(...)` stage at the end of
`Discovery::listen` — errors always pass (after a logged warning); an `Ok`
response passes iff `(!response.is_empty() || !ignore_empty) &&
response.answers.iter().any(|record| record.name == service_name)`. -/
def outputFilter (serviceName : String) (ignoreEmpty : Bool)
    (res : Except Error Response) : Bool :=
  match res with
  | Except.ok response =>
    (!response.is_empty || !ignoreEmpty)
      && response.answers.any (fun record => record.name == serviceName)
  | Except.error _ => true

/-- Source `discover.rs`: `enum StreamResult { Interval, Response(...) }`, the tags
of the merged listener/timer stream. -/
inductive StreamResult where
  | interval
  | response (res : Except Error Response)

/-- Source `discover.rs`: the output stage of `Discovery::listen`, applied to a
finite prefix of the merged event stream: the `filter_map` drops every
`Interval` tick (its query send is a detached side effect) and keeps every
`Response` payload; the `filter` then applies `outputFilter`. -/
def discoveryListen (serviceName : String) (ignoreEmpty : Bool)
    (events : List StreamResult) : List (Except Error Response) :=
  (events.filterMap (fun streamResult =>
      match streamResult with
      | StreamResult.interval => none
      | StreamResult.response res => some res)).filter
    (outputFilter serviceName ignoreEmpty)


/-- Invariant of the TXT dedup loop relating the decoded entries already
processed (`kvs`) to the accumulated mapping (`m`): every stored pair is the
first processed occurrence of its case-folded key, every processed entry has
a representative in the mapping, and stored keys are pairwise distinct after
case folding. -/
def txtKeysInvariant (lower : String → String)
    (kvs m : List (String × TxtRecordValue)) : Prop :=
  (∀ p ∈ m, ∃ pre post, kvs = pre ++ p :: post
     ∧ ∀ q ∈ pre, lower q.1 ≠ lower p.1)
  ∧ (∀ q ∈ kvs, ∃ p ∈ m, lower p.1 = lower q.1)
  ∧ m.Pairwise (fun p q => lower p.1 ≠ lower q.1)

/-- Claim C8: for every `Response` value, `is_empty()` returns `true` if and
only if `answers`, `nameservers` and `additional` are all empty. -/
theorem claim_C8_is_empty_iff (r : Response) :
    r.is_empty = true ↔
      r.answers = [] ∧ r.nameservers = [] ∧ r.additional = [] := by
  simp [Response.is_empty, List.isEmpty_iff, Bool.and_eq_true, and_assoc]

/-- Witness for C8: the all-empty response is reported empty. -/
theorem claim_C8_is_empty_iff_witness :
    Response.is_empty { answers := [], nameservers := [], additional := [] }
      = true :=
  (claim_C8_is_empty_iff
      { answers := [], nameservers := [], additional := [] }).mpr
    ⟨rfl, rfl, rfl⟩

/-- Claim C9: `socket_address()` is `Some` iff the response yields both an
address (`ip_addr()`) and a port (`port()`); in that case it combines the
first such address with the first such port, otherwise it is `None`. -/
theorem claim_C9_socket_address (r : Response) :
    ((r.socket_address).isSome ↔ (r.ip_addr).isSome ∧ (r.port).isSome)
    ∧ (∀ ip p, r.ip_addr = some ip → r.port = some p →
        r.socket_address = some { ip := ip, port := p })
    ∧ ((r.ip_addr = none ∨ r.port = none) → r.socket_address = none) := by
  refine ⟨?_, ?_, ?_⟩
  · cases h1 : r.ip_addr <;> cases h2 : r.port <;>
      simp [Response.socket_address, h1, h2]
  · intro ip p h1 h2
    simp [Response.socket_address, h1, h2]
  · intro h
    cases h with
    | inl h1 => simp [Response.socket_address, h1]
    | inr h2 => cases h1 : r.ip_addr <;> simp [Response.socket_address, h1, h2]

/-- Witness for C9: a response holding one A record and one SRV record has a
socket address combining that address and that port. -/
theorem claim_C9_socket_address_witness :
    Response.socket_address
        { answers :=
            [{ name := ("host.local"), cls := DnsClass.IN, ttl := 120,
               kind := RecordKind.A { o0 := 10, o1 := 0, o2 := 0, o3 := 5 } },
             { name := ("svc.local"), cls := DnsClass.IN, ttl := 120,
               kind := RecordKind.SRV 0 0 8080 ("host.local") }],
          nameservers := [], additional := [] }
      = some { ip := IpAddr.v4 { o0 := 10, o1 := 0, o2 := 0, o3 := 5 },
               port := 8080 } :=
  (claim_C9_socket_address _).2.1
    (IpAddr.v4 { o0 := 10, o1 := 0, o2 := 0, o3 := 5 }) 8080 rfl rfl

/-- Claim C7: the `ignore_empty` flag has no observable effect on the output
filter of `Discovery::listen`: for every item the filter with
`ignore_empty == true` decides exactly as the filter with
`ignore_empty == false`, and the whole output stage produces the same items —
an `Ok` response passing the answer-name clause necessarily has a non-empty
`answers` list, so it is never empty. -/
theorem claim_C7_ignore_empty_no_effect (serviceName : String) :
    (∀ res, outputFilter serviceName true res
        = outputFilter serviceName false res)
    ∧ (∀ events, discoveryListen serviceName true events
        = discoveryListen serviceName false events) := by
  have hres : ∀ res, outputFilter serviceName true res
      = outputFilter serviceName false res := by
    intro res
    cases res with
    | error e => rfl
    | ok response =>
      cases hAny : response.answers.any
          (fun record => record.name == serviceName) with
      | false => simp [outputFilter, hAny]
      | true =>
        have hne : response.answers ≠ [] := by
          intro hnil
          rw [hnil] at hAny
          simp at hAny
        have hisEmpty : response.answers.isEmpty = false := by
          cases hcase : response.answers with
          | nil => exact absurd hcase hne
          | cons a l => rfl
        have hEmpty : response.is_empty = false := by
          simp [Response.is_empty, hisEmpty]
        simp [outputFilter, hAny, hEmpty]
  refine ⟨hres, ?_⟩
  intro events
  unfold discoveryListen
  exact List.filter_congr (fun res _ => hres res)

/-- Claim C5: `send_request()` drives the builder with transaction id 0,
recursion/unicast-response unset, and exactly one PTR/IN question for the
configured service name; the bytes the encoder returns are sent even in the
truncation (error) position; the single datagram goes to `224.0.0.251:5353`;
and the call fails exactly when the socket send fails, with the send error. -/
theorem claim_C5_send_request (serviceName : String)
    (build : QueryBuilder → Except (List Nat) (List Nat))
    (sendTo : List Nat → SocketAddr → Except IoError Nat) :
    (addQuestion (newQuery 0 false) serviceName false QueryType.PTR
        QueryClass.IN
      = { id := 0, recursion := false,
          questions := [{ name := serviceName, preferUnicast := false,
                          qtype := QueryType.PTR,
                          qclass := QueryClass.IN }] })
    ∧ sendRequest serviceName build sendTo
      = (match sendTo
            (unwrapOrSelf (build
              { id := 0, recursion := false,
                questions := [{ name := serviceName, preferUnicast := false,
                                qtype := QueryType.PTR,
                                qclass := QueryClass.IN }] }))
            multicastDest with
         | Except.ok _ => Except.ok ()
         | Except.error e => Except.error (Error.io e)) :=
  ⟨rfl, rfl⟩

/-- Counterexample for C6: two distinct SOA records both map to
`Unimplemented` carrying the same fixed diagnostic bytes, so the carried data
is not the raw payload of the record (distinct records cannot share one
payload). -/
theorem claim_C6_counterexample :
    RecordKind.from_rr_data asciiLossy asciiLower
        (RData.SOA { primary_ns := ("ns1.local"), mailbox := ("mb.local"),
                     serial := 1, refresh := 2, retry := 3, expire := 4,
                     minimum_ttl := 5 })
      = RecordKind.Unimplemented soaUnimplementedMsg
    ∧ RecordKind.from_rr_data asciiLossy asciiLower
        (RData.SOA { primary_ns := ("ns2.local"), mailbox := ("mb.local"),
                     serial := 9, refresh := 2, retry := 3, expire := 4,
                     minimum_ttl := 5 })
      = RecordKind.Unimplemented soaUnimplementedMsg
    ∧ ({ primary_ns := ("ns1.local"), mailbox := ("mb.local"), serial := 1,
         refresh := 2, retry := 3, expire := 4, minimum_ttl := 5 } : SoaRecord)
      ≠ { primary_ns := ("ns2.local"), mailbox := ("mb.local"), serial := 9,
          refresh := 2, retry := 3, expire := 4, minimum_ttl := 5 } :=
  ⟨rfl, rfl, by decide⟩

/-- Claim C6 (amended): an SOA record maps to `Unimplemented` carrying the
fixed ASCII bytes of the message about unimplemented SOA handling, while a
record type without a typed representation (`Unknown`) maps to
`Unimplemented` carrying that record's raw payload; neither is a decode
failure. -/
theorem claim_C6_unimplemented (lossy : List Nat → String)
    (lower : String → String) :
    (∀ soa : SoaRecord,
        RecordKind.from_rr_data lossy lower (RData.SOA soa)
          = RecordKind.Unimplemented soaUnimplementedMsg)
    ∧ (∀ data : List Nat,
        RecordKind.from_rr_data lossy lower (RData.Unknown data)
          = RecordKind.Unimplemented data) :=
  ⟨fun _ => rfl, fun _ => rfl⟩

/-- Claim C1: in the output filter of `Discovery::listen`, an error item is
always forwarded; an `Ok` response is forwarded iff (the response is not
empty, or `ignore_empty` is false) and some record of `answers` has name
exactly (case-sensitively) equal to the queried service name; consequently a
response whose `answers` hold no record named exactly the service name is
never among the items the stage emits, for either `ignore_empty` value. -/
theorem claim_C1_output_filter (serviceName : String) (ignoreEmpty : Bool) :
    (∀ e, outputFilter serviceName ignoreEmpty (Except.error e) = true)
    ∧ (∀ response,
        outputFilter serviceName ignoreEmpty (Except.ok response) = true ↔
          ((response.is_empty = false ∨ ignoreEmpty = false)
            ∧ ∃ record ∈ response.answers, record.name = serviceName))
    ∧ (∀ events response,
        (∀ record ∈ response.answers, record.name ≠ serviceName) →
        Except.ok response ∉ discoveryListen serviceName ignoreEmpty events) := by
  have hiff : ∀ response : Response,
      outputFilter serviceName ignoreEmpty (Except.ok response) = true ↔
        ((response.is_empty = false ∨ ignoreEmpty = false)
          ∧ ∃ record ∈ response.answers, record.name = serviceName) := by
    intro response
    simp [outputFilter, Bool.and_eq_true, Bool.or_eq_true, List.any_eq_true,
      Bool.not_eq_true']
  refine ⟨fun e => rfl, hiff, ?_⟩
  intro events response h hmem
  unfold discoveryListen at hmem
  have hfilter := List.of_mem_filter hmem
  obtain ⟨-, record, hrec, hname⟩ := (hiff response).1 hfilter
  exact h record hrec hname

/-- Witness for C1: a response whose only answer has another name is not
among the emitted items even though it reached the filter stage. -/
theorem claim_C1_output_filter_witness :
    Except.ok { answers :=
                  [{ name := ("other.local"), cls := DnsClass.IN, ttl := 1,
                     kind := RecordKind.PTR ("t.local") }],
                nameservers := [], additional := [] }
      ∉ discoveryListen ("svc.local") true
          [StreamResult.response (Except.ok
            { answers :=
                [{ name := ("other.local"), cls := DnsClass.IN, ttl := 1,
                   kind := RecordKind.PTR ("t.local") }],
              nameservers := [], additional := [] })] :=
  (claim_C1_output_filter ("svc.local") true).2.2
    [StreamResult.response (Except.ok
      { answers :=
          [{ name := ("other.local"), cls := DnsClass.IN, ttl := 1,
             kind := RecordKind.PTR ("t.local") }],
        nameservers := [], additional := [] })]
    { answers :=
        [{ name := ("other.local"), cls := DnsClass.IN, ttl := 1,
           kind := RecordKind.PTR ("t.local") }],
      nameservers := [], additional := [] }
    (by decide)

/-- Claim C2 evaluated at a failing input: the TXT entry with bytes of
k=a=b decodes to value bytes 97 only (the content between the first and the
second equals sign), not to 97,61,98 (everything after the first one) as the
claim states; and the entry k== decodes to Empty although its content after
the first equals sign is the non-empty single byte 61. -/
theorem claim_C2_eval_at_failing_input :
    decodeTxtEntry asciiLossy [107, 61, 97, 61, 98]
      = (("k"), TxtRecordValue.value [97])
    ∧ TxtRecordValue.value [97] ≠ TxtRecordValue.value [97, 61, 98]
    ∧ decodeTxtEntry asciiLossy [107, 61, 61] = (("k"), TxtRecordValue.empty) :=
  ⟨by decide, by decide, by decide⟩

/-- Counterexample for C3: for the payload entries Foo=1 then foo=2, the
single decoded entry keeps the verbatim key Foo, which differs from the
case-folded key foo asserted by the claim. -/
theorem claim_C3_counterexample :
    txtFromPayload asciiLossy asciiLower
        [[70, 111, 111, 61, 49], [102, 111, 111, 61, 50]]
      = [(("Foo"), TxtRecordValue.value [49])]
    ∧ ("Foo" : String) ≠ ("foo") :=
  ⟨by decide, by decide⟩

/-- Claim C3 (amended): for TXT payload entries Foo=1 then foo=2 the decoded
mapping contains exactly one entry, whose key is the verbatim, case-preserved
first occurrence Foo — not the case-folded foo — and whose value is
Value of the byte 49; the later duplicate is dropped without error.  The
hypotheses pin down the external UTF-8 and case-folding routines at the ASCII
inputs involved. -/
theorem claim_C3_first_occurrence_verbatim
    (lossy : List Nat → String) (lower : String → String)
    (hFoo : lossy [70, 111, 111] = ("Foo"))
    (hfoo : lossy [102, 111, 111] = ("foo"))
    (hlowerFoo : lower ("Foo") = ("foo"))
    (hlowerfoo : lower ("foo") = ("foo")) :
    txtFromPayload lossy lower
        [[70, 111, 111, 61, 49], [102, 111, 111, 61, 50]]
      = [(("Foo"), TxtRecordValue.value [49])] := by
  have h1 : sliceSplit eqByte [70, 111, 111, 61, 49]
      = [[70, 111, 111], [49]] := by decide
  have h2 : sliceSplit eqByte [102, 111, 111, 61, 50]
      = [[102, 111, 111], [50]] := by decide
  simp [txtFromPayload, txtInsert, decodeTxtEntry, h1, h2, hFoo, hfoo,
    hlowerFoo, hlowerfoo]

/-- Witness for C3 (amended): the ASCII instances of the external routines
satisfy the hypotheses, yielding the single verbatim-key entry. -/
theorem claim_C3_first_occurrence_verbatim_witness :
    txtFromPayload asciiLossy asciiLower
        [[70, 111, 111, 61, 49], [102, 111, 111, 61, 50]]
      = [(("Foo"), TxtRecordValue.value [49])] :=
  claim_C3_first_occurrence_verbatim asciiLossy asciiLower (by decide)
    (by decide) (by decide) (by decide)

/-- Helper for C4: once an error item appears in the listener output, it is
the last item, and every item before it is a decoded response. -/
theorem listenLoop_error_last (parse : List Nat → Except DnsError Packet)
    (lossy : List Nat → String) (lower : String → String) :
    ∀ (results : List RecvResult) (e : Error),
      Except.error e ∈ listenLoop parse lossy lower results →
      ∃ pre, listenLoop parse lossy lower results = pre ++ [Except.error e]
        ∧ ∀ x ∈ pre, ∃ response, x = Except.ok response := by
  intro results
  induction results with
  | nil =>
    intro e h
    simp [listenLoop] at h
  | cons head rest ih =>
    intro e h
    cases head with
    | err e2 =>
      have hval : listenLoop parse lossy lower (RecvResult.err e2 :: rest)
          = [Except.error (Error.io e2)] := rfl
      rw [hval] at h
      have he : e = Error.io e2 := by simpa using h
      subst he
      exact ⟨[], by simp [hval], by simp⟩
    | ok data =>
      by_cases hlen : data.length > 0
      · cases hparse : parse data with
        | ok rawPacket =>
          have hval : listenLoop parse lossy lower (RecvResult.ok data :: rest)
              = Except.ok (Response.from_packet lossy lower rawPacket)
                :: listenLoop parse lossy lower rest := by
            simp [listenLoop, hlen, hparse]
          rw [hval] at h
          rcases List.mem_cons.1 h with h | h
          · simp at h
          · obtain ⟨pre, hpre, hall⟩ := ih e h
            refine ⟨Except.ok (Response.from_packet lossy lower rawPacket)
                :: pre, ?_, ?_⟩
            · rw [hval, hpre]
              rfl
            · intro x hx
              rcases List.mem_cons.1 hx with hx | hx
              · exact ⟨_, hx⟩
              · exact hall x hx
        | error eParse =>
          have hval : listenLoop parse lossy lower (RecvResult.ok data :: rest)
              = listenLoop parse lossy lower rest := by
            simp [listenLoop, hlen, hparse]
          rw [hval] at h ⊢
          exact ih e h
      · have hval : listenLoop parse lossy lower (RecvResult.ok data :: rest)
            = listenLoop parse lossy lower rest := by
          simp [listenLoop, hlen]
        rw [hval] at h ⊢
        exact ih e h

/-- Claim C4: in the receive loop of `mDNSListener::listen`, a zero-byte
receive yields nothing and the loop continues; a datagram that fails DNS
decoding is skipped and never terminates the stream; a receive-path I/O
error is yielded exactly once, as the last item, and the stream ends there —
whatever receive results would have followed are never processed. -/
theorem claim_C4_listener (parse : List Nat → Except DnsError Packet)
    (lossy : List Nat → String) (lower : String → String) :
    (∀ rest, listenLoop parse lossy lower (RecvResult.ok [] :: rest)
        = listenLoop parse lossy lower rest)
    ∧ (∀ data rest e, parse data = Except.error e →
        listenLoop parse lossy lower (RecvResult.ok data :: rest)
          = listenLoop parse lossy lower rest)
    ∧ (∀ e rest, listenLoop parse lossy lower (RecvResult.err e :: rest)
        = [Except.error (Error.io e)])
    ∧ (∀ results e, Except.error e ∈ listenLoop parse lossy lower results →
        ∃ pre, listenLoop parse lossy lower results = pre ++ [Except.error e]
          ∧ ∀ x ∈ pre, ∃ response, x = Except.ok response) := by
  refine ⟨fun rest => rfl, ?_, fun e rest => rfl,
    listenLoop_error_last parse lossy lower⟩
  intro data rest e h
  cases data with
  | nil => rfl
  | cons b bs => simp [listenLoop, h]

/-- Witness for C4: a datagram the codec rejects is skipped, leaving the
loop to process the remaining receive results. -/
theorem claim_C4_listener_witness :
    listenLoop (fun _ => Except.error { code := 0 }) asciiLossy asciiLower
        (RecvResult.ok [1] :: [RecvResult.err { code := 7 }])
      = listenLoop (fun _ => Except.error { code := 0 }) asciiLossy asciiLower
          [RecvResult.err { code := 7 }] :=
  (claim_C4_listener (fun _ => Except.error { code := 0 }) asciiLossy
      asciiLower).2.1 [1] [RecvResult.err { code := 7 }] { code := 0 } rfl

/-- Helper for C10: one first-wins insertion preserves the dedup invariant. -/
theorem txtInsert_invariant (lower : String → String)
    (kvs m : List (String × TxtRecordValue)) (kv : String × TxtRecordValue)
    (h : txtKeysInvariant lower kvs m) :
    txtKeysInvariant lower (kvs ++ [kv]) (txtInsert lower m kv) := by
  obtain ⟨hFirst, hCover, hDistinct⟩ := h
  unfold txtInsert
  by_cases hAny : m.any (fun p => lower p.1 == lower kv.1) = true
  · rw [if_pos hAny]
    refine ⟨?_, ?_, hDistinct⟩
    · intro p hp
      obtain ⟨pre, post, hsplit, hpre⟩ := hFirst p hp
      exact ⟨pre, post ++ [kv], by rw [hsplit]; simp, hpre⟩
    · intro q hq
      rcases List.mem_append.1 hq with hq | hq
      · exact hCover q hq
      · have hq2 : q = kv := by simpa using hq
        subst hq2
        obtain ⟨p, hpm, hpe⟩ := List.any_eq_true.1 hAny
        exact ⟨p, hpm, by simpa using hpe⟩
  · rw [if_neg hAny]
    have hNotIn : ∀ p ∈ m, lower p.1 ≠ lower kv.1 := by
      intro p hpm heq
      exact hAny (List.any_eq_true.2 ⟨p, hpm, by simpa using heq⟩)
    refine ⟨?_, ?_, ?_⟩
    · intro p hp
      rcases List.mem_append.1 hp with hp | hp
      · obtain ⟨pre, post, hsplit, hpre⟩ := hFirst p hp
        exact ⟨pre, post ++ [kv], by rw [hsplit]; simp, hpre⟩
      · have hp2 : p = kv := by simpa using hp
        subst hp2
        refine ⟨kvs, [], rfl, ?_⟩
        intro q hq heq
        obtain ⟨p2, hp2m, hp2e⟩ := hCover q hq
        exact hNotIn p2 hp2m (hp2e.trans heq)
    · intro q hq
      rcases List.mem_append.1 hq with hq | hq
      · obtain ⟨p, hpm, hpe⟩ := hCover q hq
        exact ⟨p, List.mem_append_left _ hpm, hpe⟩
      · have hq2 : q = kv := by simpa using hq
        exact ⟨kv, List.mem_append_right _ (by simp), by rw [hq2]⟩
    · rw [List.pairwise_append]
      refine ⟨hDistinct, List.pairwise_singleton _ _, ?_⟩
      intro p hpm q hq
      have hq2 : q = kv := by simpa using hq
      subst hq2
      exact hNotIn p hpm

/-- Helper for C10: the whole fold establishes the dedup invariant, starting
from any invariant-satisfying accumulator. -/
theorem txtFoldInvariantAux (lower : String → String) :
    ∀ (kvs done m : List (String × TxtRecordValue)),
      txtKeysInvariant lower done m →
      txtKeysInvariant lower (done ++ kvs)
        (kvs.foldl (txtInsert lower) m) := by
  intro kvs
  induction kvs with
  | nil =>
    intro done m h
    simpa using h
  | cons kv rest ih =>
    intro done m h
    have step := txtInsert_invariant lower done m kv h
    have hrec := ih (done ++ [kv]) (txtInsert lower m kv) step
    simpa [List.append_assoc] using hrec

/-- Helper for C10: `txtFromPayload` is the fold of first-wins insertion over
the decoded entries. -/
theorem txtFromPayload_eq_foldl (lossy : List Nat → String)
    (lower : String → String) (strings : List (List Nat)) :
    txtFromPayload lossy lower strings
      = (strings.map (decodeTxtEntry lossy)).foldl (txtInsert lower) [] := by
  rw [txtFromPayload, List.foldl_map]

/-- Helper for C10: the finished TXT mapping satisfies the dedup invariant
with respect to the decoded entry sequence. -/
theorem txtFromPayload_invariant (lossy : List Nat → String)
    (lower : String → String) (strings : List (List Nat)) :
    txtKeysInvariant lower (strings.map (decodeTxtEntry lossy))
      (txtFromPayload lossy lower strings) := by
  rw [txtFromPayload_eq_foldl]
  have h := txtFoldInvariantAux lower (strings.map (decodeTxtEntry lossy)) [] []
    ⟨by simp, by simp, List.Pairwise.nil⟩
  simpa using h

/-- Claim C10: every pair stored in the decoded TXT mapping is the verbatim,
case-preserved decoded form of the first payload entry with its case-folded
key (earlier entries all fold differently), and the finished mapping compares
keys case-sensitively: looking it up under any differently-cased spelling of
a stored key finds no entry. -/
theorem claim_C10_txt_key_case (lossy : List Nat → String)
    (lower : String → String) (strings : List (List Nat))
    (p : String × TxtRecordValue)
    (hp : p ∈ txtFromPayload lossy lower strings) :
    (∃ pre post, strings.map (decodeTxtEntry lossy) = pre ++ p :: post
       ∧ ∀ q ∈ pre, lower q.1 ≠ lower p.1)
    ∧ (∀ s, lower s = lower p.1 → s ≠ p.1 →
        txtLookup (txtFromPayload lossy lower strings) s = none) := by
  obtain ⟨hFirst, hCover, hDistinct⟩ :=
    txtFromPayload_invariant lossy lower strings
  refine ⟨hFirst p hp, ?_⟩
  intro s hls hne
  have hfind : (txtFromPayload lossy lower strings).find?
      (fun q => q.1 == s) = none := by
    rw [List.find?_eq_none]
    intro q hq hqs
    have hq1 : q.1 = s := by simpa using hqs
    by_cases hqp : q = p
    · subst hqp
      exact hne (hq1 ▸ rfl)
    · have hsym : Symmetric
          (fun a b : String × TxtRecordValue => lower a.1 ≠ lower b.1) :=
        fun a b hab heq => hab heq.symm
      exact List.Pairwise.forall hsym hDistinct hq hp hqp (by rw [hq1, hls])
  rw [txtLookup, hfind]
  rfl

/-- Witness for C10: in the mapping decoded from the single entry Foo=1, a
lookup under the differently-cased spelling foo finds nothing. -/
theorem claim_C10_txt_key_case_witness :
    txtLookup (txtFromPayload asciiLossy asciiLower [[70, 111, 111, 61, 49]])
        ("foo") = none :=
  (claim_C10_txt_key_case asciiLossy asciiLower [[70, 111, 111, 61, 49]]
      (("Foo"), TxtRecordValue.value [49]) (by decide)).2 ("foo") (by decide)
    (by decide)

end Mdns
